import Mathlib

/-! Verification development for the AI marking web application (src/app.py and
friends): a shallow embedding of the style annotator `extract_text`, of the
grading / aggregation / delivery pipeline of the `upload_file` route, and of the
specified stateless rate limiter, together with theorems settling the frozen
claims about them. -/

namespace AiMarker

/-! ## Style annotator (`extract_text`, src/app.py lines 69-99)

The source turns the OCR result content into `chars = list(result.content)`, an
array holding one string per original character, then for every reported style
walks its spans in descending-offset order and mutates
`chars[start] = tag_open + chars[start]` and
`chars[end - 1] = chars[end - 1] + tag_close`, finally joining the array.
Python strings are embedded as `List Char`; the cell array as
`List (List Char)`. -/

/-- A style span as delivered by the OCR collaborator: character `offset` into
the extracted content and `length` in characters (`span.offset`,
`span.length`). -/
structure Span where
  offset : Nat
  length : Nat
deriving DecidableEq, Repr

/-- A text style reported by the OCR collaborator: the font weight string and
the spans it covers (`style.font_weight`, `style.spans`). -/
structure Style where
  font_weight : String
  spans : List Span
deriving DecidableEq, Repr

/-- The marker the source inserts for a style: `"**"` when
`style.font_weight == "bold"`, the empty string otherwise (underline handling
is commented out, and `tag_open` always equals `tag_close` in the source). -/
def boldTag (w : String) : List Char := if w = "bold" then ['*', '*'] else []

/-- Python list-index semantics: a negative index counts from the end of the
list (`chars[end - 1]` with `end = 0` reads `chars[-1]`); `none` when the index
is out of range either way (Python raises `IndexError` there; no input
considered by the claims reaches that case). -/
def pyIdx (n : Nat) (i : Int) : Option Nat :=
  if i < 0 then (if 0 ≤ (n : Int) + i then some ((n : Int) + i).toNat else none)
  else if i < (n : Int) then some i.toNat else none

/-- `cells[i] = f(cells[i])` with Python index semantics. -/
def pyUpdate (cells : List (List Char)) (i : Int) (f : List Char → List Char) :
    List (List Char) :=
  match pyIdx cells.length i with
  | some j => cells.set j (f (cells.getD j []))
  | none => cells

/-- One span of one style (src/app.py lines 95-97):
`start, end = span.offset, span.offset + span.length`, then
`chars[start] = tag_open + chars[start]` and then
`chars[end - 1] = chars[end - 1] + tag_close`. -/
def applySpan (tag : List Char) (cells : List (List Char)) (sp : Span) :
    List (List Char) :=
  let start : Int := sp.offset
  let stop : Int := (sp.offset : Int) + sp.length
  pyUpdate (pyUpdate cells start (fun c => tag ++ c)) (stop - 1) (fun c => c ++ tag)

/-- `sorted(style.spans, key=lambda s: s.offset, reverse=True)`: a stable sort
into descending offset order (a stable insertion sort with a strict comparison
keeps Python's tie order). -/
def sortSpansDesc (spans : List Span) : List Span :=
  List.insertionSort (fun a b => b.offset < a.offset) spans

/-- The loop body for one style (src/app.py lines 86-97). -/
def applyStyle (cells : List (List Char)) (st : Style) : List (List Char) :=
  (sortSpansDesc st.spans).foldl (applySpan (boldTag st.font_weight)) cells

/-- The cell array just before the final `"".join(chars)`. -/
def annotateCells (content : List Char) (styles : List Style) :
    List (List Char) :=
  styles.foldl applyStyle (content.map (fun c => [c]))

/-- `extract_text` after the OCR call (src/app.py lines 83-99): annotate the
content with the style markers and join the cells back into one string. -/
def extract_text (content : List Char) (styles : List Style) : List Char :=
  (annotateCells content styles).flatten

/-- Strip the inserted style markers from one cell: under the claims'
hypotheses a cell is the original character with `"**"` possibly prepended
and/or appended, so it has length 1, 3 or 5. -/
def stripCell (l : List Char) : List Char :=
  if l.length = 5 then (l.drop 2).take 1
  else if l.length = 3 then (if l.take 2 = ['*', '*'] then l.drop 2 else l.take 1)
  else l

/-- Two spans do not overlap: one of them ends at or before the start of the
other. -/
def nonOverlap (a b : Span) : Prop :=
  a.offset + a.length ≤ b.offset ∨ b.offset + b.length ≤ a.offset

instance (a b : Span) : Decidable (nonOverlap a b) := by
  unfold nonOverlap; infer_instance

/-- All spans of a style list, in order. -/
def allSpans (styles : List Style) : List Span := styles.flatMap (·.spans)

/-- Some bold span starts at offset `i`. -/
def boldStartAt (styles : List Style) (i : Nat) : Prop :=
  ∃ st ∈ styles, st.font_weight = "bold" ∧ ∃ sp ∈ st.spans, sp.offset = i

/-- Some bold span ends (exclusively) at offset `e`. -/
def boldEndAt (styles : List Style) (e : Nat) : Prop :=
  ∃ st ∈ styles, st.font_weight = "bold" ∧ ∃ sp ∈ st.spans, sp.offset + sp.length = e

/-- The sequence of (marker, span) updates the nested style/span loops apply,
in execution order. -/
def taggedSpans (styles : List Style) : List (List Char × Span) :=
  styles.flatMap (fun st =>
    (sortSpansDesc st.spans).map (fun sp => (boldTag st.font_weight, sp)))

/-- One update of the flattened loop. -/
def applyTagged (cells : List (List Char)) (p : List Char × Span) :
    List (List Char) :=
  applySpan p.1 cells p.2

/-- The opening marker the updates of `R` put in front of cell `i` (at most one
under the non-overlap hypotheses). -/
def opnAt (R : List (List Char × Span)) (i : Nat) : List Char :=
  match R.find? (fun p => p.2.offset = i) with
  | some p => p.1
  | none => []

/-- The closing marker the updates of `R` put behind cell `i`. -/
def clsAt (R : List (List Char × Span)) (i : Nat) : List Char :=
  match R.find? (fun p => p.2.offset + p.2.length - 1 = i) with
  | some p => p.1
  | none => []

lemma pyIdx_coe (n j : Nat) (h : j < n) : pyIdx n (j : Int) = some j := by
  unfold pyIdx
  rw [if_neg (by omega), if_pos (by exact_mod_cast h)]
  simp

lemma getD_set_self {α : Type} (l : List α) (i : Nat) (v d : α) (h : i < l.length) :
    (l.set i v).getD i d = v := by
  rw [List.getD_eq_getElem _ _ (by simpa using h)]
  exact List.getElem_set_self _

lemma getD_set_ne {α : Type} (l : List α) {i j : Nat} (v d : α) (h : i ≠ j) :
    (l.set i v).getD j d = l.getD j d := by
  by_cases hj : j < l.length
  · rw [List.getD_eq_getElem _ _ (by simpa using hj), List.getD_eq_getElem _ _ hj]
    exact List.getElem_set_ne h _
  · rw [List.getD_eq_getElem?_getD, List.getD_eq_getElem?_getD,
      List.getElem?_eq_none (by rw [List.length_set]; omega),
      List.getElem?_eq_none (by omega)]

lemma pyUpdate_length (cells : List (List Char)) (i : Int) (f : List Char → List Char) :
    (pyUpdate cells i f).length = cells.length := by
  unfold pyUpdate
  cases pyIdx cells.length i <;> simp

lemma applySpan_length (tag : List Char) (cells : List (List Char)) (sp : Span) :
    (applySpan tag cells sp).length = cells.length := by
  show (pyUpdate (pyUpdate cells (sp.offset : Int) fun c => tag ++ c)
      (((sp.offset : Int) + sp.length) - 1) fun c => c ++ tag).length = cells.length
  rw [pyUpdate_length, pyUpdate_length]

/-- What the two updates of one in-range, nonempty span do to each cell. -/
lemma applySpan_getD (tag : List Char) (cells : List (List Char)) (sp : Span)
    (h1 : 0 < sp.length) (h2 : sp.offset + sp.length ≤ cells.length) (i : Nat) :
    (applySpan tag cells sp).getD i [] =
      (if sp.offset = i then tag else []) ++ cells.getD i []
        ++ (if sp.offset + sp.length - 1 = i then tag else []) := by
  have hs : sp.offset < cells.length := by omega
  have he : sp.offset + sp.length - 1 < cells.length := by omega
  have e2 : ((sp.offset : Int) + sp.length) - 1 = ((sp.offset + sp.length - 1 : Nat) : Int) := by
    omega
  have A : (pyUpdate cells (sp.offset : Int) fun c => tag ++ c)
      = cells.set sp.offset (tag ++ cells.getD sp.offset []) := by
    unfold pyUpdate; rw [pyIdx_coe _ _ hs]
  have hlen1 : (cells.set sp.offset (tag ++ cells.getD sp.offset [])).length = cells.length :=
    List.length_set _ _ _
  have B : (pyUpdate (cells.set sp.offset (tag ++ cells.getD sp.offset []))
        (((sp.offset : Int) + sp.length) - 1) fun c => c ++ tag)
      = (cells.set sp.offset (tag ++ cells.getD sp.offset [])).set (sp.offset + sp.length - 1)
          ((cells.set sp.offset (tag ++ cells.getD sp.offset [])).getD
            (sp.offset + sp.length - 1) [] ++ tag) := by
    unfold pyUpdate; rw [hlen1, e2, pyIdx_coe _ _ he]
  show (pyUpdate (pyUpdate cells (sp.offset : Int) fun c => tag ++ c)
      (((sp.offset : Int) + sp.length) - 1) fun c => c ++ tag).getD i [] = _
  rw [A, B]
  by_cases hio : sp.offset = i <;> by_cases hie : sp.offset + sp.length - 1 = i
  · -- a length-one span: both updates hit cell i
    rw [if_pos hio, if_pos hie, hie]
    rw [getD_set_self _ _ _ _ (by rw [hlen1]; omega)]
    rw [hio, getD_set_self _ _ _ _ (by omega)]
  · -- only the opening marker lands on cell i
    rw [if_pos hio, if_neg hie]
    rw [getD_set_ne _ _ _ hie, hio, getD_set_self _ _ _ _ (by omega)]
    simp [List.append_assoc]
  · -- only the closing marker lands on cell i
    rw [if_neg hio, if_pos hie, hie]
    rw [getD_set_self _ _ _ _ (by rw [hlen1]; omega)]
    rw [getD_set_ne _ _ _ hio]
    simp [List.append_assoc]
  · -- the span does not touch cell i
    rw [if_neg hio, if_neg hie]
    rw [getD_set_ne _ _ _ hie, getD_set_ne _ _ _ hio]
    simp [List.append_assoc]

lemma opnAt_cons (p : List Char × Span) (R : List (List Char × Span)) (i : Nat) :
    opnAt (p :: R) i = if p.2.offset = i then p.1 else opnAt R i := by
  unfold opnAt
  rw [List.find?_cons]
  by_cases h : p.2.offset = i <;> simp [h]

lemma clsAt_cons (p : List Char × Span) (R : List (List Char × Span)) (i : Nat) :
    clsAt (p :: R) i = if p.2.offset + p.2.length - 1 = i then p.1 else clsAt R i := by
  unfold clsAt
  rw [List.find?_cons]
  by_cases h : p.2.offset + p.2.length - 1 = i <;> simp [h]

lemma opnAt_eq_nil (R : List (List Char × Span)) (i : Nat)
    (h : ∀ q ∈ R, q.2.offset ≠ i) : opnAt R i = [] := by
  unfold opnAt
  rw [List.find?_eq_none.mpr (by intro q hq; simpa using h q hq)]

lemma clsAt_eq_nil (R : List (List Char × Span)) (i : Nat)
    (h : ∀ q ∈ R, q.2.offset + q.2.length - 1 ≠ i) : clsAt R i = [] := by
  unfold clsAt
  rw [List.find?_eq_none.mpr (by intro q hq; simpa using h q hq)]

/-- The flattened span loop decorates every cell with exactly the markers whose
span boundaries fall on it: with pairwise non-overlapping, nonempty, in-range
spans the updates touch pairwise disjoint cells. -/
lemma foldl_applyTagged_char (R : List (List Char × Span)) :
    ∀ (cells : List (List Char)),
      (∀ p ∈ R, 0 < p.2.length ∧ p.2.offset + p.2.length ≤ cells.length) →
      ((R.map Prod.snd).Pairwise nonOverlap) →
      (R.foldl applyTagged cells).length = cells.length ∧
      ∀ i, (R.foldl applyTagged cells).getD i [] =
        opnAt R i ++ cells.getD i [] ++ clsAt R i := by
  induction R with
  | nil =>
    intro cells _ _
    refine ⟨rfl, fun i => ?_⟩
    simp [opnAt, clsAt]
  | cons p R' ih =>
    intro cells hB hDJ
    have hp := hB p (List.mem_cons_self p R')
    have hlen' : (applyTagged cells p).length = cells.length := applySpan_length _ _ _
    have hB' : ∀ q ∈ R', 0 < q.2.length ∧
        q.2.offset + q.2.length ≤ (applyTagged cells p).length := by
      intro q hq
      rw [hlen']
      exact hB q (List.mem_cons_of_mem p hq)
    rw [List.map_cons] at hDJ
    have hDJmap := List.pairwise_cons.mp hDJ
    have hHead : ∀ q ∈ R', nonOverlap p.2 q.2 := by
      intro q hq
      exact hDJmap.1 q.2 (List.mem_map.mpr ⟨q, hq, rfl⟩)
    have IH := ih (applyTagged cells p) hB' hDJmap.2
    rw [List.foldl_cons]
    refine ⟨IH.1.trans hlen', fun i => ?_⟩
    have hcell := applySpan_getD p.1 cells p.2 hp.1 hp.2 i
    have hnt : (p.2.offset = i ∨ p.2.offset + p.2.length - 1 = i) →
        (∀ q ∈ R', q.2.offset ≠ i ∧ q.2.offset + q.2.length - 1 ≠ i) := by
      intro htouch q hq
      have hno := hHead q hq
      have hql := (hB q (List.mem_cons_of_mem p hq)).1
      rcases hno with h | h <;> omega
    have happ : (applyTagged cells p).getD i [] = (applySpan p.1 cells p.2).getD i [] := rfl
    rw [IH.2 i, happ, hcell, opnAt_cons, clsAt_cons]
    by_cases hio : p.2.offset = i <;> by_cases hie : p.2.offset + p.2.length - 1 = i
    · have hq := hnt (Or.inl hio)
      rw [opnAt_eq_nil _ _ (fun q hq' => (hq q hq').1),
        clsAt_eq_nil _ _ (fun q hq' => (hq q hq').2)]
      simp [hio, hie, List.append_assoc]
    · have hq := hnt (Or.inl hio)
      rw [opnAt_eq_nil _ _ (fun q hq' => (hq q hq').1),
        clsAt_eq_nil _ _ (fun q hq' => (hq q hq').2)]
      simp [hio, hie, List.append_assoc]
    · have hq := hnt (Or.inr hie)
      rw [opnAt_eq_nil _ _ (fun q hq' => (hq q hq').1),
        clsAt_eq_nil _ _ (fun q hq' => (hq q hq').2)]
      simp [hio, hie, List.append_assoc]
    · simp [hio, hie, List.append_assoc]

lemma taggedSpans_cons (st : Style) (styles : List Style) :
    taggedSpans (st :: styles) =
      (sortSpansDesc st.spans).map (fun sp => (boldTag st.font_weight, sp))
        ++ taggedSpans styles := by
  unfold taggedSpans
  rw [List.flatMap_cons]

lemma annotateCells_eq_foldl (content : List Char) (styles : List Style) :
    annotateCells content styles =
      (taggedSpans styles).foldl applyTagged (content.map (fun c => [c])) := by
  unfold annotateCells
  generalize content.map (fun c => [c]) = cells
  induction styles generalizing cells with
  | nil => simp [taggedSpans]
  | cons st rest ih =>
    rw [List.foldl_cons, taggedSpans_cons, List.foldl_append, List.foldl_map, ih]
    rfl

lemma map_snd_taggedSpans_perm (styles : List Style) :
    ((taggedSpans styles).map Prod.snd).Perm (allSpans styles) := by
  induction styles with
  | nil => simp [taggedSpans, allSpans]
  | cons st rest ih =>
    rw [taggedSpans_cons, List.map_append, List.map_map]
    have hid : (Prod.snd ∘ fun sp : Span => (boldTag st.font_weight, sp)) = id := rfl
    rw [hid, List.map_id]
    have h1 : (sortSpansDesc st.spans).Perm st.spans := List.perm_insertionSort _ _
    have : allSpans (st :: rest) = st.spans ++ allSpans rest := by
      unfold allSpans; rw [List.flatMap_cons]
    rw [this]
    exact h1.append ih

lemma mem_taggedSpans {styles : List Style} {p : List Char × Span} :
    p ∈ taggedSpans styles ↔
      ∃ st ∈ styles, ∃ sp ∈ st.spans, p = (boldTag st.font_weight, sp) := by
  unfold taggedSpans
  rw [List.mem_flatMap]
  constructor
  · rintro ⟨st, hst, hp⟩
    rcases List.mem_map.mp hp with ⟨sp, hsp, rfl⟩
    exact ⟨st, hst, sp, ((List.perm_insertionSort _ _).mem_iff).mp hsp, rfl⟩
  · rintro ⟨st, hst, sp, hsp, rfl⟩
    exact ⟨st, hst, List.mem_map.mpr
      ⟨sp, ((List.perm_insertionSort _ _).mem_iff).mpr hsp, rfl⟩⟩

lemma nonOverlap_symm : ∀ {a b : Span}, nonOverlap a b → nonOverlap b a :=
  fun h => Or.symm h

lemma snd_mem_allSpans {styles : List Style} {p : List Char × Span}
    (hp : p ∈ taggedSpans styles) : p.2 ∈ allSpans styles := by
  rcases mem_taggedSpans.mp hp with ⟨st, hst, sp, hsp, rfl⟩
  exact List.mem_flatMap.mpr ⟨st, hst, hsp⟩

lemma pairwise_taggedSpans {styles : List Style}
    (hDJ : (allSpans styles).Pairwise nonOverlap) :
    (taggedSpans styles).Pairwise (fun a b => nonOverlap a.2 b.2) :=
  List.pairwise_map.mp
    (((map_snd_taggedSpans_perm styles).pairwise_iff (fun h => nonOverlap_symm h)).mpr hDJ)

lemma symm_sndOverlap :
    Symmetric (fun a b : List Char × Span => nonOverlap a.2 b.2) :=
  fun _ _ h => nonOverlap_symm h

/-- The opening marker on a cell under the claims' hypotheses: `"**"` exactly
when a bold span starts there, nothing otherwise. -/
lemma opnAt_char {styles : List Style} {n : Nat}
    (hB : ∀ sp ∈ allSpans styles, 0 < sp.length ∧ sp.offset + sp.length ≤ n)
    (hDJ : (allSpans styles).Pairwise nonOverlap) (i : Nat) :
    (opnAt (taggedSpans styles) i = ['*', '*'] ↔ boldStartAt styles i) ∧
    (opnAt (taggedSpans styles) i = ['*', '*'] ∨ opnAt (taggedSpans styles) i = []) := by
  have hPR := pairwise_taggedSpans hDJ
  cases hF : (taggedSpans styles).find? (fun p => p.2.offset = i) with
  | none =>
    have hopn : opnAt (taggedSpans styles) i = [] := by unfold opnAt; rw [hF]
    rw [hopn]
    refine ⟨⟨fun h => absurd h (by simp), fun h => ?_⟩, Or.inr rfl⟩
    rcases h with ⟨st, hst, hw, sp, hsp, hoff⟩
    have hmem : (boldTag st.font_weight, sp) ∈ taggedSpans styles :=
      mem_taggedSpans.mpr ⟨st, hst, sp, hsp, rfl⟩
    have := List.find?_eq_none.mp hF _ hmem
    simp [hoff] at this
  | some q =>
    have hopn : opnAt (taggedSpans styles) i = q.1 := by unfold opnAt; rw [hF]
    rw [hopn]
    have hqmem := List.mem_of_find?_eq_some hF
    have hqoff : q.2.offset = i := by simpa using List.find?_some hF
    rcases hq' : mem_taggedSpans.mp hqmem with ⟨st', hst', sp', hsp', hqe⟩
    refine ⟨⟨fun hq1 => ?_, fun h => ?_⟩, ?_⟩
    · refine ⟨st', hst', ?_, sp', hsp', by rw [← hqoff, hqe]⟩
      by_contra hw
      rw [hqe] at hq1
      simp only [boldTag, if_neg hw] at hq1
      exact absurd hq1 (by simp)
    · rcases h with ⟨st, hst, hw, sp, hsp, hoff⟩
      have hpmem : (boldTag st.font_weight, sp) ∈ taggedSpans styles :=
        mem_taggedSpans.mpr ⟨st, hst, sp, hsp, rfl⟩
      by_cases heq : q = (boldTag st.font_weight, sp)
      · rw [heq, hw]
        simp [boldTag]
      · exfalso
        have hno := hPR.forall symm_sndOverlap hqmem hpmem heq
        have h1 := (hB q.2 (snd_mem_allSpans hqmem)).1
        have h2 := (hB sp (snd_mem_allSpans hpmem)).1
        simp only [nonOverlap] at hno
        omega
    · rw [hqe]
      by_cases hw : st'.font_weight = "bold" <;> simp [boldTag, hw]

/-- The closing marker on a cell: `"**"` exactly when a bold span ends just
behind it. -/
lemma clsAt_char {styles : List Style} {n : Nat}
    (hB : ∀ sp ∈ allSpans styles, 0 < sp.length ∧ sp.offset + sp.length ≤ n)
    (hDJ : (allSpans styles).Pairwise nonOverlap) (i : Nat) :
    (clsAt (taggedSpans styles) i = ['*', '*'] ↔ boldEndAt styles (i + 1)) ∧
    (clsAt (taggedSpans styles) i = ['*', '*'] ∨ clsAt (taggedSpans styles) i = []) := by
  have hPR := pairwise_taggedSpans hDJ
  cases hF : (taggedSpans styles).find? (fun p => p.2.offset + p.2.length - 1 = i) with
  | none =>
    have hcls : clsAt (taggedSpans styles) i = [] := by unfold clsAt; rw [hF]
    rw [hcls]
    refine ⟨⟨fun h => absurd h (by simp), fun h => ?_⟩, Or.inr rfl⟩
    rcases h with ⟨st, hst, hw, sp, hsp, hend⟩
    have hmem : (boldTag st.font_weight, sp) ∈ taggedSpans styles :=
      mem_taggedSpans.mpr ⟨st, hst, sp, hsp, rfl⟩
    have hlen := (hB sp (snd_mem_allSpans hmem)).1
    have := List.find?_eq_none.mp hF _ hmem
    simp only [decide_eq_true_eq] at this
    omega
  | some q =>
    have hcls : clsAt (taggedSpans styles) i = q.1 := by unfold clsAt; rw [hF]
    rw [hcls]
    have hqmem := List.mem_of_find?_eq_some hF
    have hqend : q.2.offset + q.2.length - 1 = i := by simpa using List.find?_some hF
    have hqlen := (hB q.2 (snd_mem_allSpans hqmem)).1
    rcases hq' : mem_taggedSpans.mp hqmem with ⟨st', hst', sp', hsp', hqe⟩
    refine ⟨⟨fun hq1 => ?_, fun h => ?_⟩, ?_⟩
    · refine ⟨st', hst', ?_, sp', hsp', ?_⟩
      · by_contra hw
        rw [hqe] at hq1
        simp only [boldTag, if_neg hw] at hq1
        exact absurd hq1 (by simp)
      · have : q.2 = sp' := by rw [hqe]
        rw [← this]
        omega
    · rcases h with ⟨st, hst, hw, sp, hsp, hend⟩
      have hpmem : (boldTag st.font_weight, sp) ∈ taggedSpans styles :=
        mem_taggedSpans.mpr ⟨st, hst, sp, hsp, rfl⟩
      have hplen := (hB sp (snd_mem_allSpans hpmem)).1
      by_cases heq : q = (boldTag st.font_weight, sp)
      · rw [heq, hw]
        simp [boldTag]
      · exfalso
        have hno := hPR.forall symm_sndOverlap hqmem hpmem heq
        simp only [nonOverlap] at hno
        omega
    · rw [hqe]
      by_cases hw : st'.font_weight = "bold" <;> simp [boldTag, hw]

lemma cells0_getD (content : List Char) (i : Nat) (h : i < content.length) :
    (content.map (fun c => [c])).getD i [] = [content.get ⟨i, h⟩] := by
  rw [List.getD_eq_getElem _ _ (by simpa using h)]
  simp [List.getElem_map]

lemma cells0_length (content : List Char) :
    (content.map (fun c : Char => [c])).length = content.length :=
  List.length_map _ _

lemma flatten_map_singleton (l : List Char) :
    (l.map (fun c => [c])).flatten = l := by
  induction l with
  | nil => rfl
  | cons c t ih => simp [ih]

lemma stripCell_marked (c : Char) (opn cls : List Char)
    (ho : opn = ['*', '*'] ∨ opn = []) (hc : cls = ['*', '*'] ∨ cls = []) :
    stripCell (opn ++ [c] ++ cls) = [c] := by
  rcases ho with rfl | rfl <;> rcases hc with rfl | rfl
  · simp [stripCell]
  · simp [stripCell]
  · by_cases h : c = '*'
    · subst h; simp [stripCell]
    · simp [stripCell, h]
  · simp [stripCell]

/-- C6 as one statement: under the claims' span invariants, the marker-bearing
cell array keeps one original character per cell (so stripping the inserted
markers recovers the text), and a cell carries an opening or closing marker
exactly when a bold span starts at it or ends just behind it. -/
theorem annotateCells_char (content : List Char) (styles : List Style)
    (hB : ∀ sp ∈ allSpans styles, 0 < sp.length ∧ sp.offset + sp.length ≤ content.length)
    (hDJ : (allSpans styles).Pairwise nonOverlap) :
    ((annotateCells content styles).map stripCell).flatten = content ∧
    (annotateCells content styles).length = content.length ∧
    ∀ i (h : i < content.length), ∃ opn cls,
      (annotateCells content styles).getD i [] = opn ++ [content.get ⟨i, h⟩] ++ cls ∧
      (opn = ['*', '*'] ↔ boldStartAt styles i) ∧
      (cls = ['*', '*'] ↔ boldEndAt styles (i + 1)) ∧
      (opn = ['*', '*'] ∨ opn = []) ∧ (cls = ['*', '*'] ∨ cls = []) := by
  have hB' : ∀ p ∈ taggedSpans styles, 0 < p.2.length ∧
      p.2.offset + p.2.length ≤ (content.map (fun c => [c])).length := by
    intro p hp
    rw [cells0_length]
    exact hB p.2 (snd_mem_allSpans hp)
  have hDJ' : ((taggedSpans styles).map Prod.snd).Pairwise nonOverlap :=
    ((map_snd_taggedSpans_perm styles).pairwise_iff (fun h => nonOverlap_symm h)).mpr hDJ
  have hmain := foldl_applyTagged_char (taggedSpans styles) (content.map (fun c => [c]))
    hB' hDJ'
  have hlen : (annotateCells content styles).length = content.length := by
    rw [annotateCells_eq_foldl, hmain.1, cells0_length]
  have hcell : ∀ i (h : i < content.length),
      (annotateCells content styles).getD i [] =
        opnAt (taggedSpans styles) i ++ [content.get ⟨i, h⟩]
          ++ clsAt (taggedSpans styles) i := by
    intro i h
    rw [annotateCells_eq_foldl, hmain.2 i, cells0_getD content i h]
  refine ⟨?_, hlen, fun i h => ?_⟩
  · have hmap : (annotateCells content styles).map stripCell
        = content.map (fun c => [c]) := by
      refine List.ext_getElem (by rw [List.length_map, hlen, List.length_map]) ?_
      intro n h1 h2
      rw [List.getElem_map]
      have hn : n < content.length := by
        rw [List.length_map, hlen] at h1
        exact h1
      have hg : (annotateCells content styles)[n] =
          (annotateCells content styles).getD n [] := by
        rw [List.getD_eq_getElem _ _ (by rw [hlen]; exact hn)]
      rw [hg, hcell n hn,
        stripCell_marked _ _ _ (opnAt_char hB hDJ n).2 (clsAt_char hB hDJ n).2]
      rw [List.getElem_map]
      simp [List.get_eq_getElem]
    rw [hmap, flatten_map_singleton]
  · exact ⟨opnAt (taggedSpans styles) i, clsAt (taggedSpans styles) i,
      hcell i h, (opnAt_char hB hDJ i).1, (clsAt_char hB hDJ i).1,
      (opnAt_char hB hDJ i).2, (clsAt_char hB hDJ i).2⟩

lemma flatten_set {α : Type} (cells : List (List α)) (i : Nat) (v : List α)
    (h : i < cells.length) :
    (cells.set i v).flatten =
      (cells.take i).flatten ++ v ++ (cells.drop (i + 1)).flatten := by
  induction cells generalizing i with
  | nil => simp at h
  | cons hd tl ih =>
    cases i with
    | zero => simp
    | succ j =>
      have hj : j < tl.length := by simpa using h
      simp only [List.set, List.flatten_cons, List.take, List.drop]
      rw [ih j hj]
      simp [List.append_assoc]

lemma take_set_of_le {α : Type} (l : List α) (i : Nat) (v : α) (m : Nat) (h : m ≤ i) :
    (l.set i v).take m = l.take m := by
  induction l generalizing i m with
  | nil => simp
  | cons hd tl ih =>
    cases i with
    | zero =>
      have : m = 0 := Nat.le_zero.mp h
      simp [this]
    | succ j =>
      cases m with
      | zero => simp
      | succ k =>
        simp only [List.set, List.take]
        rw [ih j k (by omega)]

lemma drop_set_eq_cons {α : Type} (l : List α) (i : Nat) (v : α) (h : i < l.length) :
    (l.set i v).drop i = v :: l.drop (i + 1) := by
  induction l generalizing i with
  | nil => simp at h
  | cons hd tl ih =>
    cases i with
    | zero => simp
    | succ j =>
      have hj : j < tl.length := by simpa using h
      simp only [List.set, List.drop]
      exact ih j hj

lemma extract_text_nil_spans (content : List Char) (w : String) :
    extract_text content [⟨w, []⟩] = content := by
  unfold extract_text annotateCells applyStyle sortSpansDesc
  simp [List.insertionSort, flatten_map_singleton]

/-- C7 (amended): a zero-length span is not a no-op. For a bold span at offset
`s ≥ 1` the opening marker is prepended to the character at `s` and the
closing marker is appended to the character at `s - 1` (`chars[end - 1]` with
`end = start`), so four marker characters appear between positions `s - 1` and
`s` and the output differs from leaving the span out. -/
theorem zero_length_span_inserts_markers (content : List Char) (s : Nat)
    (h1 : 1 ≤ s) (h2 : s < content.length) :
    extract_text content [⟨"bold", [⟨s, 0⟩]⟩] =
      content.take s ++ ['*', '*', '*', '*'] ++ content.drop s ∧
    extract_text content [⟨"bold", [⟨s, 0⟩]⟩] ≠ extract_text content [⟨"bold", []⟩] := by
  have hn : content.length = (content.map (fun c => [c])).length := (cells0_length content).symm
  have hs : s < (content.map (fun c => [c])).length := by omega
  have hs1 : s - 1 < (content.map (fun c => [c])).length := by omega
  have hsort : sortSpansDesc [(⟨s, 0⟩ : Span)] = [⟨s, 0⟩] := rfl
  have hcells : annotateCells content [⟨"bold", [⟨s, 0⟩]⟩] =
      applySpan ['*', '*'] (content.map (fun c => [c])) ⟨s, 0⟩ := by
    simp only [annotateCells, applyStyle, List.foldl_cons, List.foldl_nil]
    rw [hsort]
    simp [boldTag, List.foldl_cons, List.foldl_nil]
  have hA : (pyUpdate (content.map (fun c => [c])) ((s : Nat) : Int)
        fun c => ['*', '*'] ++ c)
      = (content.map (fun c => [c])).set s
          (['*', '*'] ++ (content.map (fun c => [c])).getD s []) := by
    unfold pyUpdate
    rw [pyIdx_coe _ _ hs]
  have hlenA : ((content.map (fun c => [c])).set s
      (['*', '*'] ++ (content.map (fun c => [c])).getD s [])).length
      = (content.map (fun c => [c])).length := List.length_set _ _ _
  have e2 : ((s : Int) + (0 : Nat)) - 1 = (((s - 1 : Nat)) : Int) := by omega
  have hB : (pyUpdate ((content.map (fun c => [c])).set s
        (['*', '*'] ++ (content.map (fun c => [c])).getD s []))
        (((s : Int) + (0 : Nat)) - 1) fun c => c ++ ['*', '*'])
      = ((content.map (fun c => [c])).set s
          (['*', '*'] ++ (content.map (fun c => [c])).getD s [])).set (s - 1)
          (((content.map (fun c => [c])).set s
            (['*', '*'] ++ (content.map (fun c => [c])).getD s [])).getD (s - 1) []
              ++ ['*', '*']) := by
    unfold pyUpdate
    rw [hlenA, e2, pyIdx_coe _ _ hs1]
  have happly : applySpan ['*', '*'] (content.map (fun c => [c])) ⟨s, 0⟩ =
      ((content.map (fun c => [c])).set s
        (['*', '*'] ++ (content.map (fun c => [c])).getD s [])).set (s - 1)
        ((content.map (fun c => [c])).getD (s - 1) [] ++ ['*', '*']) := by
    show (pyUpdate (pyUpdate (content.map (fun c => [c])) ((s : Nat) : Int)
        fun c => ['*', '*'] ++ c) (((s : Int) + (0 : Nat)) - 1)
        fun c => c ++ ['*', '*']) = _
    rw [hA, hB, getD_set_ne _ _ _ (by omega)]
  have hu : (content.map (fun c => [c])).getD s [] = [content.get ⟨s, h2⟩] :=
    cells0_getD content s h2
  have hw : (content.map (fun c => [c])).getD (s - 1) [] =
      [content.get ⟨s - 1, by omega⟩] := cells0_getD content (s - 1) (by omega)
  have hmain : extract_text content [⟨"bold", [⟨s, 0⟩]⟩] =
      content.take s ++ ['*', '*', '*', '*'] ++ content.drop s := by
    unfold extract_text
    rw [hcells, happly, hu, hw]
    rw [flatten_set _ _ _ (by rw [List.length_set]; exact hs1)]
    rw [take_set_of_le _ _ _ _ (by omega)]
    have hdrop : (((content.map (fun c => [c])).set s
        (['*', '*'] ++ [content.get ⟨s, h2⟩])).drop ((s - 1) + 1)) =
        (['*', '*'] ++ [content.get ⟨s, h2⟩]) :: (content.map (fun c => [c])).drop (s + 1) := by
      have : (s - 1) + 1 = s := by omega
      rw [this, drop_set_eq_cons _ _ _ hs]
    rw [hdrop]
    rw [← List.map_take, ← List.map_drop, flatten_map_singleton, List.flatten_cons,
      flatten_map_singleton]
    have htake : content.take s = content.take (s - 1) ++ [content.get ⟨s - 1, by omega⟩] := by
      have h3 : s - 1 + 1 = s := by omega
      conv_lhs => rw [← h3]
      rw [List.take_succ, List.getElem?_eq_getElem (show s - 1 < content.length by omega)]
      simp [List.get_eq_getElem]
    rw [htake, List.drop_eq_getElem_cons h2]
    simp [List.get_eq_getElem, List.append_assoc]
    have hfinal : List.take (s - 1 + 1) content
        = List.take (s - 1) content ++ [content[s - 1]] := by
      rw [List.take_succ, List.getElem?_eq_getElem (show s - 1 < content.length by omega)]
      rfl
    rw [hfinal, List.append_assoc, List.singleton_append]
  refine ⟨hmain, ?_⟩
  rw [hmain, extract_text_nil_spans]
  intro hcontra
  have := congrArg List.length hcontra
  simp at this
  omega

/-! ## Rate limiter (spec section 4.4)

The repository source under src/ contains no rate limiter implementation; the
spec describes a stateless decode/evaluate/encode triple over client-held
state, and `evaluate` is modelled from its words. -/

namespace RateLimiter

/-- Client-held rolling-window state: request count and window anchor. -/
structure RateState where
  count : Nat
  windowStart : Int
deriving DecidableEq, Repr

/-- Modelled from the spec: the rate limiter (spec section 4.4) is missing from
src/. If `now - state.windowStart > windowLength`, first reset to
`{count: 0, windowStart: now}`. -/
def resetIfExpired (windowLength : Int) (s : RateState) (now : Int) : RateState :=
  if now - s.windowStart > windowLength then RateState.mk 0 now else s

/-- Modelled from the spec: the rate limiter (spec section 4.4) is missing from
src/. After the possible reset, `allowed := count < maxRequests`; if allowed,
return the state with the count incremented and `windowStart` unchanged,
otherwise return the possibly-reset state unchanged (no increment on a
denial). -/
def evaluate (maxRequests : Nat) (windowLength : Int) (s : RateState) (now : Int) :
    RateState × Bool :=
  let s' := resetIfExpired windowLength s now
  if s'.count < maxRequests then (RateState.mk (s'.count + 1) s'.windowStart, true)
  else (s', false)

/-- The state after `n` requests all arriving at time `t0`, starting from a
fresh state. -/
def repeatEval (maxRequests : Nat) (windowLength : Int) (t0 : Int) : Nat → RateState
  | 0 => RateState.mk 0 t0
  | n + 1 =>
    (evaluate maxRequests windowLength (repeatEval maxRequests windowLength t0 n) t0).1

end RateLimiter

/-! ## Grading pipeline (`upload_file` route, src/app.py lines 200-397)

External collaborators (the OCR service behind `extract_text`, the scoring
service behind `ai_client.chat.completions.create`, `json.loads`, and the
message-delivery client) enter as function-valued parameters; `Except.error`
models a raised exception. Numbers are embedded as rationals: every numeric
value the claims exercise is exact, float representation error is not
modelled. -/

/-- One parsed grading record: a dict with keys question/awarded/total/feedback
in the source; `none` models a missing key or JSON null (`p.get(...)`). -/
structure GradingItem where
  question : String
  awarded : Option ℚ
  total : Option ℚ
  feedback : String
deriving DecidableEq, Repr

/-- One chat message (role, content) sent to the scoring collaborator. -/
structure Msg where
  role : String
  content : String
deriving DecidableEq, Repr

/-- One entry of `results` (src/app.py lines 337-341). -/
structure DocumentResult where
  filename : String
  parts : List GradingItem
  student_text : String
deriving DecidableEq, Repr

/-- The value `upload_file` returns: a 400 validation response, the rendered
results page, or the email acknowledgement page. -/
inductive Response where
  | badRequest (msg : String)
  | resultsPage (results : List DocumentResult)
      (markscheme_text subject exam_board level : String)
      (class_average : ℚ) (class_feedback : String)
  | emailAck
deriving DecidableEq, Repr

/-- The submitted form: `request.files` and `request.form` fields read by the
route (src/app.py lines 204-217, 233-249). -/
structure UploadForm where
  markschemeFile : Option String
  studentFiles : List String
  markingPointsFile : Option String
  level : String
  subject : String
  exam_board : String
  teacher_email : String
  additional : String
  opts : List String
  feedback_detail : String
deriving DecidableEq, Repr

/-- The system message (src/app.py lines 281-282 and 301-302). -/
def systemMsg (level exam_board subject : String) : String :=
  "You are an examiner for " ++ level ++ " (" ++ exam_board ++ " " ++ subject ++
    "). Use only the mark scheme and additional instructions."

/-- The per-part prompt (src/app.py lines 264-276). -/
def partsPrompt (markscheme_text marking_points_text additional student_text : String) :
    String :=
  "Mark Scheme:\n" ++ markscheme_text ++ "\n\n" ++
  "Marking Points (optional):\n" ++ marking_points_text ++ "\n\n" ++
  "Additional Instructions:\n" ++ additional ++ "\n\n" ++
  "Student Response:\n" ++ student_text ++ "\n\n" ++
  "For each question-part (e.g. 4a, 4b, i, ii), output a JSON object with:\n" ++
  "  - question: the part identifier,\n" ++
  "  - awarded: student's marks for this part,\n" ++
  "  - total: maximum marks for this part,\n" ++
  "  - feedback: a short sentence explaining where they lost marks.\n" ++
  "Ignore obvious spelling mistakes unless correct spelling is required for the mark.\n" ++
  "Wrap all objects in a top-level JSON array and output ONLY the JSON."

/-- The overall-mode prompt (src/app.py lines 303-311). -/
def overallPrompt (markscheme_text marking_points_text additional student_text : String) :
    String :=
  "Mark Scheme:\n" ++ markscheme_text ++ "\n\n" ++
  "Marking Points (optional):\n" ++ marking_points_text ++ "\n\n" ++
  "Additional Instructions:\n" ++ additional ++ "\n\n" ++
  "Student Response:\n" ++ student_text ++ "\n\n" ++
  "Instructions:\n" ++
  "- First state 'Mark: X/Y'.\n" ++
  "Ignore obvious spelling mistakes unless correct spelling is required for the mark.\n" ++
  "- Then feedback under 'What went well', 'Targets for improvement', and 'Misconceptions'."

/-- What `json.loads` can hand back to the route when it does not raise: the
route never checks the decoded value's shape, it just iterates it and calls
`part.get(...)` on each element (src/app.py lines 119-123 and 332-333). The
constructor classifies the decoded value by how that use treats it:
`records ps` is a value consumed as a sequence of dict-like records (missing
keys become `none`; an empty dict or empty list behaves as `records []`), and
`illShaped exc` is any other successfully-decoded value — e.g. `[1, 2, 3]`, a
non-empty dict, `null` — whose first iteration/`.get` access raises the Python
exception `exc` (an `AttributeError` or `TypeError`), which nothing catches. -/
inductive ParsedParts where
  | records (parts : List GradingItem)
  | illShaped (exc : String)
deriving DecidableEq, Repr

/-- The first shape-sensitive use of the parsed value: `for part in parts:`
followed by `part.get(...)` inside `save_feedback_pdf_structured` (src/app.py
lines 118-123, called at line 329, outside any try/except). On an ill-shaped
value Python raises there and the request dies uncaught. -/
def partsRecords : ParsedParts → Except String (List GradingItem)
  | .records ps => .ok ps
  | .illShaped exc => .error exc

/-- The branch on `feedback_detail` inside the per-student loop (src/app.py
lines 261-323): the scoring call and, in parts mode, the JSON decode, with an
exception from either (`try ... except`, lines 277-294) caught and turned into
one synthetic item. A decode that succeeds with an ill-shaped value is NOT an
exception: the try block ends normally and `parts` is simply that value. In
overall mode a failed call degrades to an error commentary and the single item
is always named `"Overall"` with `awarded`/`total` left unset. -/
def gradeStudent (chat : List Msg → Except String String)
    (jsonLoads : String → Except String ParsedParts)
    (level exam_board subject markscheme_text marking_points_text additional
      feedback_detail student_text : String) : ParsedParts :=
  if feedback_detail = "parts" then
    match chat [⟨"system", systemMsg level exam_board subject⟩,
        ⟨"user", partsPrompt markscheme_text marking_points_text additional student_text⟩]
        >>= jsonLoads with
    | .ok parts => parts
    | .error e =>
      .records [⟨"Overall", none, none, "Error generating structured feedback: " ++ e⟩]
  else
    let fb_text := match chat [⟨"system", systemMsg level exam_board subject⟩,
        ⟨"user", overallPrompt markscheme_text marking_points_text additional student_text⟩]
      with
      | .ok c => c
      | .error e => "Error generating feedback: " ++ e
    .records [⟨"Overall", none, none, fb_text⟩]

/-- Python `round(x, 1)` on the exact value: round half to even at one decimal
place. -/
def pyRound1 (x : ℚ) : ℚ :=
  let y := x * 10
  let f : ℤ := ⌊y⌋
  let r := y - f
  (if r > 1 / 2 then ((f + 1 : ℤ) : ℚ) else if r < 1 / 2 then (f : ℚ)
   else if f % 2 = 0 then (f : ℚ) else ((f + 1 : ℤ) : ℚ)) / 10

/-- Lines 332-334: for each part with both `awarded` and `total` present,
append `round(p["awarded"]/p["total"]*100, 1)`; Python raises
`ZeroDivisionError` when `total == 0` (there is no `total > 0` guard), modelled
as `Except.error`. -/
def partMarks (parts : List GradingItem) : Except String (List ℚ) :=
  match parts with
  | [] => .ok []
  | p :: rest =>
    match p.awarded, p.total with
    | some a, some t =>
      if t = 0 then .error "float division by zero"
      else do
        let ms ← partMarks rest
        pure (pyRound1 (a / t * 100) :: ms)
    | _, _ => partMarks rest

/-- The marks of the whole batch in submission order: the per-student
extraction (lines 332-334) composed across the student loop — `gradeLoop`
accumulates exactly this over the parsed parts of each document. -/
def collectMarks (l : List (List GradingItem)) : Except String (List ℚ) :=
  match l with
  | [] => .ok []
  | ps :: rest => do
    let a ← partMarks ps
    let b ← collectMarks rest
    pure (a ++ b)

/-- Lines 344-345: `valid = [m for m in marks if m is not None]` never drops
anything (every entry is a number), and
`class_avg = round(sum(valid)/max(len(valid),1),1)`. -/
def classAverage (marks : List ℚ) : ℚ :=
  pyRound1 (marks.sum / ((max marks.length 1 : Nat) : ℚ))

/-- The class-summary request (src/app.py lines 347-356): the user message
joins one empty string per document (`[""] * len(all_fb)`) — the collected
feedback text never enters the prompt. -/
def summaryMessages (level subject exam_board : String)
    (all_fb : List (List GradingItem)) : List Msg :=
  [⟨"system", "You are a TA summarising feedback trends for " ++ level ++ " "
      ++ subject ++ " (" ++ exam_board ++ ")."⟩,
   ⟨"user", String.intercalate "\n\n" (List.replicate all_fb.length "")
      ++ "\n\nPlease summarise key trends in performance."⟩]

/-- `send_email_with_attachments_acs` (src/app.py lines 167-189): with the ACS
configuration missing it only prints a warning and returns; otherwise the
attachment reads and the `begin_send`/`result` calls are the `send`
collaborator, whose exception propagates — there is no try/except in the
function or around its call site. -/
def send_email_with_attachments_acs (acsConfigured : Bool)
    (send : Except String Unit) : Except String Unit :=
  if ¬ acsConfigured then .ok () else send

def allowed_levels : List String := ["KS3", "GCSE", "A level"]

def allowed_subjects : List String :=
  ["Physics", "Maths", "English", "History", "Geography", "Biology", "Chemistry",
   "Computer Science", "Design and Technology", "Art and Design"]

def allowed_boards : List String := ["AQA", "Edexcel", "OCR", "WJEC"]

/-- The per-student loop of the route (src/app.py lines 252-341), in
submission order. For each student file: OCR it, grade it (`gradeStudent`,
lines 261-323), save the structured-feedback PDF — whose `part.get` access is
the first thing that raises on an ill-shaped parse (`partsRecords`, lines
118-123 via line 329) — extract that student's marks (lines 332-334, the
`ZeroDivisionError` site), and append the results entry (lines 337-341). An
exception at any step aborts the loop uncaught, so later candidates are never
processed. -/
def gradeLoop (ocr : String → String) (chat : List Msg → Except String String)
    (jsonLoads : String → Except String ParsedParts)
    (level exam_board subject markscheme_text marking_points_text additional
      feedback_detail : String) :
    List String → Except String (List DocumentResult × List ℚ)
  | [] => .ok ([], [])
  | name :: rest => do
    let ps ← partsRecords (gradeStudent chat jsonLoads level exam_board subject
      markscheme_text marking_points_text additional feedback_detail (ocr name))
    let ms ← partMarks ps
    let pr ← gradeLoop ocr chat jsonLoads level exam_board subject markscheme_text
      marking_points_text additional feedback_detail rest
    pure (DocumentResult.mk name ps (ocr name) :: pr.1, ms ++ pr.2)

/-- The `upload_file` route (src/app.py lines 200-397). `ocr` is
`extract_text` applied to the saved file, `chat` the scoring collaborator,
`jsonLoads` the JSON decode, `acsConfigured`/`send` the delivery side. The
mark-scheme text is the OCR of the saved mark-scheme file (lines 232-237) and
the marking-points text the OCR of the optional marking-points file or the
empty string (lines 241-249). Writing the PDFs is an I/O effect with no
bearing on the returned value beyond the `part.get` crash modelled in
`gradeLoop`. A final `Except.error` is an uncaught exception, rendered by the
app-wide error handler as a 500 page. -/
def upload_file (ocr : String → String) (chat : List Msg → Except String String)
    (jsonLoads : String → Except String ParsedParts)
    (acsConfigured : Bool) (send : Except String Unit)
    (form : UploadForm) : Except String Response :=
  if form.markschemeFile = none ∨ form.studentFiles = [] then
    .ok (.badRequest "Mark scheme and at least one student file are required.")
  else
    let view_on_site := form.opts.contains "website"
    let send_email := form.opts.contains "email"
    if ¬ allowed_levels.contains form.level then
      .ok (.badRequest ("Invalid level '" ++ form.level ++ "'."))
    else if ¬ allowed_subjects.contains form.subject then
      .ok (.badRequest ("Invalid subject '" ++ form.subject ++ "'."))
    else if ¬ allowed_boards.contains form.exam_board then
      .ok (.badRequest ("Invalid exam board '" ++ form.exam_board ++ "'."))
    else
      let markscheme_text := ocr (form.markschemeFile.getD "")
      let marking_points_text := match form.markingPointsFile with
        | some mp => ocr mp
        | none => ""
      match gradeLoop ocr chat jsonLoads form.level form.exam_board form.subject
          markscheme_text marking_points_text form.additional form.feedback_detail
          form.studentFiles with
      | .error e => .error e
      | .ok (results, marks) =>
        let class_avg := classAverage marks
        let class_feedback := match chat (summaryMessages form.level form.subject
            form.exam_board (results.map (fun r => r.parts))) with
          | .ok c => c
          | .error e => "Class summary error: " ++ e
        match (if send_email then send_email_with_attachments_acs acsConfigured send
            else .ok ()) with
        | .error e => .error e
        | .ok _ =>
          if view_on_site then
            .ok (.resultsPage results markscheme_text form.subject form.exam_board
              form.level class_avg class_feedback)
          else .ok .emailAck

/-! ## Theorems for the claims -/

lemma repeatEval_eq (windowLength : Int) (t0 : Int) (hwl : 0 ≤ windowLength) :
    ∀ k, k ≤ 15 → RateLimiter.repeatEval 15 windowLength t0 k =
      RateLimiter.RateState.mk k t0 := by
  intro k
  induction k with
  | zero => intro _; rfl
  | succ n ih =>
    intro hk
    have hn := ih (by omega)
    show (RateLimiter.evaluate 15 windowLength
      (RateLimiter.repeatEval 15 windowLength t0 n) t0).1 = _
    rw [hn]
    unfold RateLimiter.evaluate RateLimiter.resetIfExpired
    rw [if_neg (show ¬ t0 - t0 > windowLength by omega)]
    rw [if_pos (show (RateLimiter.RateState.mk n t0).count < 15 from by
      show n < 15; omega)]

/-- C1: `evaluate` first resets the state when the window has expired, then
allows exactly when the count is below `maxRequests`, increments only on an
allowed request and keeps `windowStart`, and returns the possibly-reset state
unchanged on a denial; starting fresh with `maxRequests = 15`, requests 1..15
at the same instant are allowed with counts 1..15, request 16 is denied with
the count still 15, and the first request after the window elapses is allowed
with count 1. -/
theorem rate_limiter_evaluate_spec (windowLength : Int) (t0 : Int)
    (hwl : 0 ≤ windowLength) :
    (∀ (maxRequests : Nat) (s : RateLimiter.RateState) (now : Int),
      ((RateLimiter.evaluate maxRequests windowLength s now).2 = true ↔
        (RateLimiter.resetIfExpired windowLength s now).count < maxRequests) ∧
      ((RateLimiter.resetIfExpired windowLength s now).count < maxRequests →
        RateLimiter.evaluate maxRequests windowLength s now =
          (RateLimiter.RateState.mk
            ((RateLimiter.resetIfExpired windowLength s now).count + 1)
            (RateLimiter.resetIfExpired windowLength s now).windowStart, true)) ∧
      (¬ (RateLimiter.resetIfExpired windowLength s now).count < maxRequests →
        RateLimiter.evaluate maxRequests windowLength s now =
          (RateLimiter.resetIfExpired windowLength s now, false))) ∧
    (∀ k, k ≤ 15 → RateLimiter.repeatEval 15 windowLength t0 k =
      RateLimiter.RateState.mk k t0) ∧
    (∀ k, k < 15 →
      (RateLimiter.evaluate 15 windowLength
        (RateLimiter.repeatEval 15 windowLength t0 k) t0).2 = true) ∧
    ((RateLimiter.evaluate 15 windowLength
        (RateLimiter.repeatEval 15 windowLength t0 15) t0).2 = false ∧
      (RateLimiter.evaluate 15 windowLength
        (RateLimiter.repeatEval 15 windowLength t0 15) t0).1 =
        RateLimiter.RateState.mk 15 t0) ∧
    (RateLimiter.evaluate 15 windowLength
        (RateLimiter.repeatEval 15 windowLength t0 15) (t0 + windowLength + 1) =
      (RateLimiter.RateState.mk 1 (t0 + windowLength + 1), true)) := by
  refine ⟨fun maxRequests s now => ?_, repeatEval_eq windowLength t0 hwl,
    fun k hk => ?_, ⟨?_, ?_⟩, ?_⟩
  · unfold RateLimiter.evaluate
    by_cases h : (RateLimiter.resetIfExpired windowLength s now).count < maxRequests
    · rw [if_pos h]
      exact ⟨by simp [h], fun _ => rfl, fun hc => absurd h hc⟩
    · rw [if_neg h]
      exact ⟨by simp [h], fun hc => absurd hc h, fun _ => rfl⟩
  · rw [repeatEval_eq windowLength t0 hwl k (by omega)]
    unfold RateLimiter.evaluate RateLimiter.resetIfExpired
    rw [if_neg (show ¬ t0 - t0 > windowLength by omega)]
    rw [if_pos (show (RateLimiter.RateState.mk k t0).count < 15 from by
      show k < 15; omega)]
  · rw [repeatEval_eq windowLength t0 hwl 15 (by omega)]
    unfold RateLimiter.evaluate RateLimiter.resetIfExpired
    rw [if_neg (show ¬ t0 - t0 > windowLength by omega)]
    rw [if_neg (show ¬ (RateLimiter.RateState.mk 15 t0).count < 15 from by
      show ¬ 15 < 15; omega)]
  · rw [repeatEval_eq windowLength t0 hwl 15 (by omega)]
    unfold RateLimiter.evaluate RateLimiter.resetIfExpired
    rw [if_neg (show ¬ t0 - t0 > windowLength by omega)]
    rw [if_neg (show ¬ (RateLimiter.RateState.mk 15 t0).count < 15 from by
      show ¬ 15 < 15; omega)]
  · rw [repeatEval_eq windowLength t0 hwl 15 (by omega)]
    unfold RateLimiter.evaluate RateLimiter.resetIfExpired
    rw [if_pos (show t0 + windowLength + 1 -
      (RateLimiter.RateState.mk 15 t0).windowStart > windowLength from by
      show t0 + windowLength + 1 - t0 > windowLength; omega)]
    rw [if_pos (show (RateLimiter.RateState.mk 0 (t0 + windowLength + 1)).count < 15 from by
      show 0 < 15; omega)]

/-- Witness for C1: with a 60-unit window anchored at time 0, the request at
time 61 after the 15 same-instant requests (and the denied 16th) is allowed
again with count 1. -/
theorem rate_limiter_evaluate_spec_witness :
    RateLimiter.evaluate 15 60 (RateLimiter.repeatEval 15 60 0 15) 61 =
      (RateLimiter.RateState.mk 1 61, true) := by
  have h := (rate_limiter_evaluate_spec 60 0 (by decide)).2.2.2.2
  simpa using h

instance exceptDecEq {ε α : Type} [DecidableEq ε] [DecidableEq α] :
    DecidableEq (Except ε α)
  | .error e, .error f =>
    if h : e = f then isTrue (by rw [h]) else
      isFalse (fun hh => h (by injection hh))
  | .error _, .ok _ => isFalse (fun hh => Except.noConfusion hh)
  | .ok _, .error _ => isFalse (fun hh => Except.noConfusion hh)
  | .ok x, .ok y =>
    if h : x = y then isTrue (by rw [h]) else
      isFalse (fun hh => h (by injection hh))

lemma pyRound1_intCast (n : ℤ) : pyRound1 ((n : ℚ)) = (n : ℚ) := by
  unfold pyRound1
  have h1 : ((n : ℚ) * 10) = ((n * 10 : ℤ) : ℚ) := by push_cast; ring
  simp only [h1, Int.floor_intCast, sub_self]
  norm_num

/-- C2: on an empty percentage multiset the aggregator returns the number `0`
(`round(sum([])/max(0,1),1) = 0.0`), not a distinct no-data sentinel; on the
claim's example multiset 80/100, 60/100, 100/100 it returns the rounded
arithmetic mean `80.0`. -/
theorem aggregate_empty_is_zero :
    classAverage [] = 0 ∧
    collectMarks [[⟨"q1", some 80, some 100, ""⟩, ⟨"q2", some 60, some 100, ""⟩,
      ⟨"q3", some 100, some 100, ""⟩]] = .ok [80, 60, 100] ∧
    classAverage [80, 60, 100] = 80 := by
  refine ⟨by simp [classAverage, pyRound1], ?_, ?_⟩
  · simp only [collectMarks, partMarks]
    norm_num
    rw [show pyRound1 80 = 80 from by simpa using pyRound1_intCast 80,
      show pyRound1 60 = 60 from by simpa using pyRound1_intCast 60,
      show pyRound1 100 = 100 from by simpa using pyRound1_intCast 100]
    rfl
  · simp only [classAverage, List.sum_cons, List.sum_nil, List.length_cons,
      List.length_nil]
    norm_num
    simpa using pyRound1_intCast 80

/-- C5: the marks extraction has no `total > 0` guard: an item `0/0` raises
`ZeroDivisionError` (modelled as `Except.error`), and the exception propagates
out of `upload_file` — the whole request fails instead of the item being
excluded. -/
theorem zero_total_crashes :
    partMarks [⟨"1a", some 0, some 0, "fb"⟩] = .error "float division by zero" ∧
    upload_file (fun _ => "text") (fun _ => .ok "resp")
      (fun _ => .ok (.records [⟨"1a", some 0, some 0, "fb"⟩])) false (.ok ())
      (UploadForm.mk (some "ms.pdf") ["s1.pdf"] none "KS3" "Physics" "AQA" "" ""
        ["website"] "parts")
      = .error "float division by zero" := by
  constructor
  · simp [partMarks]
  · simp [upload_file, gradeLoop, gradeStudent, partsRecords, partMarks,
      allowed_levels, allowed_subjects, allowed_boards, Bind.bind, Except.bind]

/-- C3 counterexample: the synthetic item substituted for a failed PerItem
scoring call is named "Overall", not "Error"; and a response that decodes to a
value that is not a sequence of records (here `[1, 2, 3]`) is not caught at
all — the whole three-candidate batch dies with the `part.get` exception
instead of yielding three DocumentResults. -/
theorem perItem_synthetic_item_not_named_error :
    gradeStudent (fun _ => .error "boom") (fun _ => .ok (.records [])) "KS3" "AQA"
      "Physics" "ms" "" "" "parts" "student"
      = .records [⟨"Overall", none, none, "Error generating structured feedback: boom"⟩] ∧
    ("Overall" : String) ≠ "Error" ∧
    upload_file (fun _ => "text") (fun _ => .ok "[1, 2, 3]")
      (fun _ => .ok (.illShaped "AttributeError: 'int' object has no attribute 'get'"))
      false (.ok ())
      (UploadForm.mk (some "ms.pdf") ["s1.pdf", "s2.pdf", "s3.pdf"] none "KS3"
        "Physics" "AQA" "" "" ["website"] "parts")
      = .error "AttributeError: 'int' object has no attribute 'get'" := by
  refine ⟨rfl, by decide, ?_⟩
  simp [upload_file, gradeLoop, gradeStudent, partsRecords,
    allowed_levels, allowed_subjects, allowed_boards, Bind.bind, Except.bind]

/-- A successful run of the per-student loop yields exactly one entry per
student file, in submission order, each determined only by that student's own
file, and its accumulated marks are the batch-level `collectMarks`. -/
lemma gradeLoop_ok_shape (ocr : String → String)
    (chat : List Msg → Except String String)
    (jsonLoads : String → Except String ParsedParts)
    (level exam_board subject ms mp add detail : String) :
    ∀ (students : List String) (res : List DocumentResult) (marks : List ℚ),
      gradeLoop ocr chat jsonLoads level exam_board subject ms mp add detail students
        = .ok (res, marks) →
      res.map (fun r => r.filename) = students ∧
      collectMarks (res.map (fun r => r.parts)) = .ok marks ∧
      ∀ r ∈ res, partsRecords (gradeStudent chat jsonLoads level exam_board subject
          ms mp add detail (ocr r.filename)) = .ok r.parts ∧
        r.student_text = ocr r.filename := by
  intro students
  induction students with
  | nil =>
    intro res marks h
    simp only [gradeLoop, Except.ok.injEq, Prod.mk.injEq] at h
    obtain ⟨h1, h2⟩ := h
    subst h1
    subst h2
    simp [collectMarks]
  | cons name rest ih =>
    intro res marks h
    simp only [gradeLoop, Bind.bind, Except.bind] at h
    cases hg : partsRecords (gradeStudent chat jsonLoads level exam_board subject
        ms mp add detail (ocr name)) with
    | error e => simp only [hg] at h; exact absurd h (by simp)
    | ok ps =>
      simp only [hg] at h
      cases hm : partMarks ps with
      | error e => simp only [hm] at h; exact absurd h (by simp)
      | ok msh =>
        simp only [hm] at h
        cases hl : gradeLoop ocr chat jsonLoads level exam_board subject ms mp add
            detail rest with
        | error e => simp only [hl] at h; exact absurd h (by simp)
        | ok pr =>
          simp only [hl, pure, Except.pure, Except.ok.injEq, Prod.mk.injEq] at h
          obtain ⟨h1, h2⟩ := h
          subst h1
          subst h2
          obtain ⟨ih1, ih2, ih3⟩ := ih pr.1 pr.2 hl
          refine ⟨by simp [ih1], ?_, ?_⟩
          · simp only [List.map_cons, collectMarks, Bind.bind, Except.bind, hm, ih2,
              pure, Except.pure]
          · intro r hr
            rcases List.mem_cons.mp hr with hr' | hr'
            · subst hr'
              exact ⟨by simpa using hg, rfl⟩
            · exact ih3 r hr'

lemma upload_after_validation (ocr : String → String)
    (chat : List Msg → Except String String)
    (jsonLoads : String → Except String ParsedParts)
    (acsConfigured : Bool) (send : Except String Unit) (form : UploadForm)
    (msf : String) (results : List DocumentResult) (marks : List ℚ)
    (hms : form.markschemeFile = some msf)
    (hstu : form.studentFiles ≠ [])
    (hlev : allowed_levels.contains form.level = true)
    (hsub : allowed_subjects.contains form.subject = true)
    (hbrd : allowed_boards.contains form.exam_board = true)
    (hloop : gradeLoop ocr chat jsonLoads form.level form.exam_board form.subject
      (ocr msf)
      (match form.markingPointsFile with
        | some mp => ocr mp
        | none => "")
      form.additional form.feedback_detail form.studentFiles = .ok (results, marks)) :
    upload_file ocr chat jsonLoads acsConfigured send form =
      match (if form.opts.contains "email" then
          send_email_with_attachments_acs acsConfigured send else .ok ()) with
      | .error e => .error e
      | .ok _ =>
        if form.opts.contains "website" then
          .ok (.resultsPage results (ocr msf)
            form.subject form.exam_board form.level (classAverage marks)
            (match chat (summaryMessages form.level form.subject form.exam_board
                (results.map (fun r => r.parts))) with
             | .ok c => c
             | .error e => "Class summary error: " ++ e))
        else .ok Response.emailAck := by
  unfold upload_file
  rw [if_neg (by simp [hms, hstu]), if_neg (by simp only [hlev]; simp),
    if_neg (by simp only [hsub]; simp), if_neg (by simp only [hbrd]; simp)]
  simp only [hms, Option.getD_some, hloop]

/-- C3 (amended): a PerItem scoring call that raises, or a response that is
not JSON-decodable, degrades that candidate alone to one synthetic item —
named "Overall" (not "Error") — with `awarded` and `total` unset and an error
commentary, and a batch whose candidates all end in records (parsed or
synthetic) yields exactly one DocumentResult per candidate in submission
order, each determined only by its own file; but a response that decodes to a
value that is not a sequence of records is not caught: the request dies at the
first `part.get` access and every later candidate is skipped. -/
theorem perItem_fault_isolation (ocr : String → String)
    (chat : List Msg → Except String String)
    (jsonLoads : String → Except String ParsedParts)
    (acsConfigured : Bool) (send : Except String Unit) (form : UploadForm)
    (msf : String) (results : List DocumentResult) (marks : List ℚ)
    (hms : form.markschemeFile = some msf)
    (hstu : form.studentFiles ≠ [])
    (hlev : allowed_levels.contains form.level = true)
    (hsub : allowed_subjects.contains form.subject = true)
    (hbrd : allowed_boards.contains form.exam_board = true)
    (hweb : form.opts.contains "website" = true)
    (hnoml : form.opts.contains "email" = false)
    (hloop : gradeLoop ocr chat jsonLoads form.level form.exam_board form.subject
      (ocr msf)
      (match form.markingPointsFile with
        | some mp => ocr mp
        | none => "")
      form.additional form.feedback_detail form.studentFiles = .ok (results, marks)) :
    (∀ (level exam_board subject ms mp add text e : String),
      (chat [⟨"system", systemMsg level exam_board subject⟩,
          ⟨"user", partsPrompt ms mp add text⟩] >>= jsonLoads) = .error e →
        gradeStudent chat jsonLoads level exam_board subject ms mp add "parts" text
          = .records [⟨"Overall", none, none,
              "Error generating structured feedback: " ++ e⟩]) ∧
    results.map (fun r => r.filename) = form.studentFiles ∧
    results.length = form.studentFiles.length ∧
    collectMarks (results.map (fun r => r.parts)) = .ok marks ∧
    (∀ r ∈ results, partsRecords (gradeStudent chat jsonLoads form.level
        form.exam_board form.subject (ocr msf)
        (match form.markingPointsFile with
          | some mp => ocr mp
          | none => "")
        form.additional form.feedback_detail (ocr r.filename)) = .ok r.parts ∧
      r.student_text = ocr r.filename) ∧
    (∀ (level exam_board subject ms mp add detail name exc : String)
        (rest : List String),
      gradeStudent chat jsonLoads level exam_board subject ms mp add detail
          (ocr name) = .illShaped exc →
        gradeLoop ocr chat jsonLoads level exam_board subject ms mp add detail
          (name :: rest) = .error exc) ∧
    (∃ fb, upload_file ocr chat jsonLoads acsConfigured send form =
      .ok (.resultsPage results (ocr msf)
        form.subject form.exam_board form.level (classAverage marks) fb)) := by
  obtain ⟨hshape1, hshape2, hshape3⟩ := gradeLoop_ok_shape ocr chat jsonLoads
    form.level form.exam_board form.subject (ocr msf)
    (match form.markingPointsFile with
      | some mp => ocr mp
      | none => "")
    form.additional form.feedback_detail form.studentFiles results marks hloop
  refine ⟨fun level exam_board subject ms mp add text e he => ?_,
    hshape1, ?_, hshape2, hshape3, fun level exam_board subject ms mp add detail
      name exc rest hill => ?_, ?_⟩
  · unfold gradeStudent
    rw [if_pos rfl, he]
  · rw [← hshape1, List.length_map]
  · simp only [gradeLoop, Bind.bind, Except.bind, hill, partsRecords]
  · refine ⟨(match chat (summaryMessages form.level form.subject form.exam_board
        (results.map (fun r => r.parts))) with
      | .ok c => c
      | .error e => "Class summary error: " ++ e), ?_⟩
    rw [upload_after_validation ocr chat jsonLoads acsConfigured send form msf
      results marks hms hstu hlev hsub hbrd hloop]
    have hweb2 : "website" ∈ form.opts := by simpa using hweb
    have hnoml2 : "email" ∉ form.opts := by simpa using hnoml
    simp [hweb2, hnoml2]

/-- Witness for C3: a one-candidate PerItem batch whose scoring call raises is
still a full results page with that candidate's single synthetic item. -/
theorem perItem_fault_isolation_witness :
    ∃ fb, upload_file (fun _ => "text") (fun _ => .error "boom")
      (fun _ => .ok (.records [])) false (.ok ())
      (UploadForm.mk (some "ms.pdf") ["s1.pdf"] none "KS3" "Physics" "AQA" "" ""
        ["website"] "parts") =
      .ok (.resultsPage
        [DocumentResult.mk "s1.pdf"
          [⟨"Overall", none, none, "Error generating structured feedback: boom"⟩]
          "text"]
        ("text") "Physics" "AQA" "KS3" (classAverage []) fb) :=
  (perItem_fault_isolation (fun _ => "text") (fun _ => .error "boom")
    (fun _ => .ok (.records [])) false (.ok ())
    (UploadForm.mk (some "ms.pdf") ["s1.pdf"] none "KS3" "Physics" "AQA" "" ""
      ["website"] "parts")
    "ms.pdf"
    [DocumentResult.mk "s1.pdf"
      [⟨"Overall", none, none, "Error generating structured feedback: boom"⟩]
      "text"]
    [] rfl (by decide) (by decide) (by decide) (by decide) (by decide) (by decide)
    (by decide)).2.2.2.2.2.2

/-- C4 counterexample: in Overall mode the scoring response "Mark: 8/10" is
stored verbatim as commentary and `awarded` stays unset — no "Mark: X/Y"
pattern extraction happens in this source. -/
theorem overall_mode_ignores_mark_pattern :
    gradeStudent (fun _ => .ok "Mark: 8/10\nWhat went well: clear method.")
      (fun _ => .ok (.records [])) "KS3" "AQA" "Physics" "ms" "" "" "overall" "student"
      = .records [⟨"Overall", none, none, "Mark: 8/10\nWhat went well: clear method."⟩] ∧
    (none : Option ℚ) ≠ some 8 := by
  constructor
  · rfl
  · decide

/-- C4 (amended): in Overall mode the orchestrator emits exactly one
GradingItem named "Overall" whose commentary is the raw scoring response (or an
error description when the call raises); `awarded` and `total` are always left
unset — the response is never parsed for a "Mark: <int>/<int>" pattern. -/
theorem overall_mode_single_item (chat : List Msg → Except String String)
    (jsonLoads : String → Except String ParsedParts)
    (level exam_board subject ms mp add d text : String) (hd : d ≠ "parts") :
    gradeStudent chat jsonLoads level exam_board subject ms mp add d text =
      .records [⟨"Overall", none, none,
        match chat [⟨"system", systemMsg level exam_board subject⟩,
            ⟨"user", overallPrompt ms mp add text⟩] with
          | .ok c => c
          | .error e => "Error generating feedback: " ++ e⟩] := by
  unfold gradeStudent
  rw [if_neg hd]

/-- Witness for C4: the "Mark: 8/10" response lands verbatim in the single
"Overall" item, with no mark extracted. -/
theorem overall_mode_single_item_witness :
    gradeStudent (fun _ => .ok "Mark: 8/10") (fun _ => .ok (.records [])) "KS3" "AQA"
      "Physics" "ms" "" "" "overall" "student"
      = .records [⟨"Overall", none, none, "Mark: 8/10"⟩] := by
  have h := overall_mode_single_item (fun _ => .ok "Mark: 8/10")
    (fun _ => .ok (.records [])) "KS3" "AQA" "Physics" "ms" "" "" "overall" "student"
    (by decide)
  simpa using h

/-- C8 counterexample: a submission with an empty delivery-option set passes
validation and the whole pipeline, returning the email-acknowledgement success
page (with no email configured or sent) instead of a validation failure. -/
theorem no_delivery_option_not_rejected :
    upload_file (fun _ => "text") (fun _ => .ok "resp") (fun _ => .ok (.records []))
      false (.ok ())
      (UploadForm.mk (some "ms.pdf") ["s1.pdf"] none "KS3" "Physics" "AQA" "" ""
        [] "overall")
      = .ok Response.emailAck := by
  decide

/-- C8 (amended): validation rejects only missing files and bad
level/subject/exam-board values; a submission whose delivery-option set is
empty is not rejected — the batch is processed and the email-acknowledgement
page is returned (which is not a validation-failure response), with no email
sent. -/
theorem empty_options_processed (ocr : String → String)
    (chat : List Msg → Except String String)
    (jsonLoads : String → Except String ParsedParts)
    (acsConfigured : Bool) (send : Except String Unit) (form : UploadForm)
    (msf : String) (results : List DocumentResult) (marks : List ℚ)
    (hms : form.markschemeFile = some msf)
    (hstu : form.studentFiles ≠ [])
    (hlev : allowed_levels.contains form.level = true)
    (hsub : allowed_subjects.contains form.subject = true)
    (hbrd : allowed_boards.contains form.exam_board = true)
    (hopts : form.opts = [])
    (hloop : gradeLoop ocr chat jsonLoads form.level form.exam_board form.subject
      (ocr msf)
      (match form.markingPointsFile with
        | some mp => ocr mp
        | none => "")
      form.additional form.feedback_detail form.studentFiles = .ok (results, marks)) :
    upload_file ocr chat jsonLoads acsConfigured send form = .ok Response.emailAck ∧
    (∀ m, Response.emailAck ≠ Response.badRequest m) := by
  refine ⟨?_, fun m h => Response.noConfusion h⟩
  rw [upload_after_validation ocr chat jsonLoads acsConfigured send form msf results
    marks hms hstu hlev hsub hbrd hloop]
  simp [hopts]

/-- Witness for C8: a fully valid one-candidate submission with no delivery
option chosen succeeds with the acknowledgement page. -/
theorem empty_options_processed_witness :
    upload_file (fun _ => "text") (fun _ => .ok "resp") (fun _ => .ok (.records []))
      false (.ok ())
      (UploadForm.mk (some "ms.pdf") ["s1.pdf"] none "KS3" "Physics" "AQA" "" ""
        [] "overall")
      = .ok Response.emailAck :=
  (empty_options_processed (fun _ => "text") (fun _ => .ok "resp")
    (fun _ => .ok (.records [])) false (.ok ())
    (UploadForm.mk (some "ms.pdf") ["s1.pdf"] none "KS3" "Physics" "AQA" "" ""
      [] "overall")
    "ms.pdf" [DocumentResult.mk "s1.pdf" [⟨"Overall", none, none, "resp"⟩] "text"]
    [] rfl (by decide) (by decide) (by decide) (by decide) rfl (by decide)).1

/-- C9 counterexample: with email delivery requested and the ACS client
configured, an exception from the delivery collaborator propagates and the
request fails (a 500 via the app-wide handler) — the completed batch does not
yield a success response. -/
theorem delivery_exception_fails_request :
    upload_file (fun _ => "text") (fun _ => .ok "resp") (fun _ => .ok (.records []))
      true (.error "ACS delivery failed")
      (UploadForm.mk (some "ms.pdf") ["s1.pdf"] none "KS3" "Physics" "AQA" "" ""
        ["email"] "overall")
      = .error "ACS delivery failed" := by
  decide

/-- C9 (amended): only the missing-ACS-configuration case is non-fatal (the
function prints and returns, and the success acknowledgement is still
produced); when the ACS client is configured, an exception raised by the
delivery collaborator propagates uncaught and turns the whole request into a
failure. -/
theorem delivery_failure_behaviour (ocr : String → String)
    (chat : List Msg → Except String String)
    (jsonLoads : String → Except String ParsedParts)
    (acsConfigured : Bool) (send : Except String Unit) (form : UploadForm)
    (msf : String) (results : List DocumentResult) (marks : List ℚ)
    (hms : form.markschemeFile = some msf)
    (hstu : form.studentFiles ≠ [])
    (hlev : allowed_levels.contains form.level = true)
    (hsub : allowed_subjects.contains form.subject = true)
    (hbrd : allowed_boards.contains form.exam_board = true)
    (hml : form.opts.contains "email" = true)
    (hweb : form.opts.contains "website" = false)
    (hloop : gradeLoop ocr chat jsonLoads form.level form.exam_board form.subject
      (ocr msf)
      (match form.markingPointsFile with
        | some mp => ocr mp
        | none => "")
      form.additional form.feedback_detail form.studentFiles = .ok (results, marks)) :
    (acsConfigured = false →
      upload_file ocr chat jsonLoads acsConfigured send form = .ok Response.emailAck) ∧
    (∀ e, acsConfigured = true → send = .error e →
      upload_file ocr chat jsonLoads acsConfigured send form = .error e) := by
  have hml2 : "email" ∈ form.opts := by simpa using hml
  have hweb2 : "website" ∉ form.opts := by simpa using hweb
  constructor
  · intro hacs
    rw [upload_after_validation ocr chat jsonLoads acsConfigured send form msf
      results marks hms hstu hlev hsub hbrd hloop]
    simp [hml2, hweb2, hacs, send_email_with_attachments_acs]
  · intro e hacs hsend
    rw [upload_after_validation ocr chat jsonLoads acsConfigured send form msf
      results marks hms hstu hlev hsub hbrd hloop]
    simp [hml2, hacs, hsend, send_email_with_attachments_acs]

/-- Witness for C9: with ACS configured and a failing delivery call, the
request returns the propagated error. -/
theorem delivery_failure_behaviour_witness :
    upload_file (fun _ => "text") (fun _ => .ok "resp") (fun _ => .ok (.records []))
      true (.error "boom")
      (UploadForm.mk (some "ms.pdf") ["s1.pdf"] none "KS3" "Physics" "AQA" "" ""
        ["email"] "overall")
      = .error "boom" :=
  (delivery_failure_behaviour (fun _ => "text") (fun _ => .ok "resp")
    (fun _ => .ok (.records [])) true (.error "boom")
    (UploadForm.mk (some "ms.pdf") ["s1.pdf"] none "KS3" "Physics" "AQA" "" ""
      ["email"] "overall")
    "ms.pdf" [DocumentResult.mk "s1.pdf" [⟨"Overall", none, none, "resp"⟩] "text"]
    [] rfl (by decide) (by decide) (by decide) (by decide) (by decide) (by decide)
    (by decide)).2 "boom" rfl rfl

/-- C10: the class-summary request depends on the batch only through the
number of documents — `"\n\n".join([""] * len(all_fb))` joins one empty string
per document, so two batches of equal size (and equal level/subject/exam
board) produce identical summary requests whatever their feedback says. -/
theorem summary_request_depends_only_on_count (level subject exam_board : String)
    (fb1 fb2 : List (List GradingItem)) (h : fb1.length = fb2.length) :
    summaryMessages level subject exam_board fb1 =
      summaryMessages level subject exam_board fb2 := by
  unfold summaryMessages
  rw [h]

/-- Witness for C10: two one-document batches with different feedback yield
the same summary request. -/
theorem summary_request_depends_only_on_count_witness :
    summaryMessages "KS3" "Physics" "AQA" [[⟨"1a", some 2, some 3, "good working"⟩]] =
      summaryMessages "KS3" "Physics" "AQA" [[⟨"Overall", none, none, "poor"⟩]] :=
  summary_request_depends_only_on_count "KS3" "Physics" "AQA" _ _ rfl

/-- Witness for C6: a bold span over the first two of three characters
round-trips: stripping the inserted markers recovers the text. -/
theorem annotateCells_char_witness :
    ((annotateCells ['a', 'b', 'c'] [⟨"bold", [⟨0, 2⟩]⟩]).map stripCell).flatten
      = ['a', 'b', 'c'] :=
  (annotateCells_char ['a', 'b', 'c'] [⟨"bold", [⟨0, 2⟩]⟩] (by decide) (by decide)).1

/-- C7 counterexample: a zero-length bold span at offset 1 of "ab" changes the
output ("a****b"), so it is not a no-op. -/
theorem zero_length_span_changes_output :
    extract_text ['a', 'b'] [⟨"bold", [⟨1, 0⟩]⟩] ≠
      extract_text ['a', 'b'] [⟨"bold", []⟩] := by
  decide

/-- Witness for C7 (amended): on "ab" the zero-length bold span at offset 1
yields "a****b". -/
theorem zero_length_span_inserts_markers_witness :
    extract_text ['a', 'b'] [⟨"bold", [⟨1, 0⟩]⟩] = ['a', '*', '*', '*', '*', 'b'] := by
  have h := (zero_length_span_inserts_markers ['a', 'b'] 1 (by decide) (by decide)).1
  simpa using h

end AiMarker
